import Mathlib

/-!
Shallow embedding of `src/retryit.ts` (the `retry` function and its inner
`retryPromise` loop) together with proofs of the behavioural properties of the
retry controller.

Modelling choices:
* The asynchronous task is modelled as a function `task : Nat → Except ε α`
  giving the result of the n-th invocation (1-based), so that runs with any
  success/failure pattern can be described.
* `Math.random() * 100` jitter draws are modelled as a stream
  `jitter : Nat → ℚ`; theorems about backoff quantify over streams whose
  values lie in `[0, 100)`, exactly the range of `Math.random() * 100`.
* JavaScript numbers used for delays are modelled as rationals `ℚ`; the
  retry budget `retries` is modelled as `Int` (the code compares
  `attempt <= retries` and the spec calls it an integer).
* The observable behaviour of one call to `retryPromise` is an event trace
  (task invocations, `retryCondition` checks with their boolean result, the
  `attempt++` increments, `onRetry` hook calls, `setTimeout` sleeps with
  their duration, the single fallback call) paired with a terminal outcome.
* The `Promise.race` against the timeout timer cannot be expressed as real
  time in a shallow embedding; the race winner is abstracted into a boolean
  `timerFiresFirst`.  The truthiness test `if (timeout)` is modelled
  faithfully: a timer is armed only for a present, non-zero timeout value.
-/

namespace Retryit

/-- Observable events emitted during one call of the inner `retryPromise`
loop of `src/retryit.ts`.  `invoke n` is the n-th invocation of the task
(1-based, matching the log line "Attempt ${attempt + 1}"), `condCheck e b`
records a call `retryCondition(error)` returning `b`, `incr v` records the
`attempt++` statement with `v` the new counter value, `hookCall a e` records
`onRetry(attempt, error)`, `sleep d` records the
`await new Promise(... setTimeout(..., currentDelay))` suspension, and
`fallbackCall` records the single `await fallback()`. -/
inductive Event (ε : Type) where
  | invoke (n : Nat)
  | condCheck (e : ε) (result : Bool)
  | incr (newValue : Nat)
  | hookCall (attempt : Nat) (e : ε)
  | sleep (d : ℚ)
  | fallbackCall
  deriving DecidableEq

/-- Terminal outcome of a call to `retry` / `retryPromise`.  Each constructor
is one of the code's terminal paths: `success` is `return await task()`,
`fallbackValue`/`fallbackError` are resolution/rejection of
`return await fallback()`, `nonRetryable` is the `throw error` after the
`retryCondition` check fails, `exhausted` is the `throw error` after the
budget is spent with no fallback, `unexpectedFailure` is the trailing
`throw new Error('Retry failed unexpectedly')`, and `timedOut` is the
rejection with `new Error('Retry timeout exceeded')` from the timer race. -/
inductive Outcome (ε α : Type) where
  | success (a : α)
  | fallbackValue (a : α)
  | fallbackError (e : ε)
  | nonRetryable (e : ε)
  | exhausted (e : ε)
  | unexpectedFailure
  | timedOut
  deriving DecidableEq

/-- `true` for every documented terminal outcome of the controller (success
value, fallback value or fallback error, non-retryable error, exhausted
error, timeout error); `false` only for the trailing
`throw new Error('Retry failed unexpectedly')`. -/
def Outcome.isDocumented {ε α : Type} : Outcome ε α → Bool
  | .unexpectedFailure => false
  | _ => true

/-- The `RetryOptions` interface of `src/retryit.ts`.  The `onRetry` callback
is modelled by its presence (the `if (onRetry)` test); its invocations are
recorded in the event trace.  The single execution of the `fallback` promise
is modelled by its result. -/
structure RetryOptions (ε α : Type) where
  retries : Int
  delay : ℚ
  exponentialBackoff : Bool := false
  onRetry : Bool := false
  retryCondition : ε → Bool := fun _ => true
  timeout : Option ℚ := none
  fallback : Option (Except ε α) := none

variable {ε α : Type}

/-- The inner `retryPromise` loop of `src/retryit.ts`:

```
while (attempt <= retries) {
  try { return await task(); }
  catch (error) {
    if (!retryCondition(error)) throw error;
    attempt++;
    if (attempt > retries) {
      if (fallback) return await fallback();
      throw error;
    }
    if (onRetry) onRetry(attempt, error);
    await new Promise((resolve) => setTimeout(resolve, currentDelay));
    if (exponentialBackoff) { currentDelay *= 2; currentDelay += Math.random() * 100; }
  }
}
throw new Error('Retry failed unexpectedly');
```

The mutable `attempt` and `currentDelay` variables are passed as arguments;
`jitter a` is the `Math.random() * 100` draw made after the retry numbered
`a`.  Returns the event trace together with the terminal outcome. -/
def retryPromise (o : RetryOptions ε α) (task : Nat → Except ε α) (jitter : Nat → ℚ)
    (attempt : Nat) (currentDelay : ℚ) : List (Event ε) × Outcome ε α :=
  if h : (attempt : Int) ≤ o.retries then
    match task (attempt + 1) with
    | .ok a => ([.invoke (attempt + 1)], .success a)
    | .error e =>
      if o.retryCondition e = false then
        ([.invoke (attempt + 1), .condCheck e false], .nonRetryable e)
      else
        if (attempt + 1 : Int) > o.retries then
          match o.fallback with
          | some (.ok a) =>
              ([.invoke (attempt + 1), .condCheck e true, .incr (attempt + 1), .fallbackCall],
                .fallbackValue a)
          | some (.error fe) =>
              ([.invoke (attempt + 1), .condCheck e true, .incr (attempt + 1), .fallbackCall],
                .fallbackError fe)
          | none =>
              ([.invoke (attempt + 1), .condCheck e true, .incr (attempt + 1)], .exhausted e)
        else
          let rest := retryPromise o task jitter (attempt + 1)
            (if o.exponentialBackoff then currentDelay * 2 + jitter (attempt + 1)
             else currentDelay)
          ([.invoke (attempt + 1), .condCheck e true, .incr (attempt + 1)] ++
              (if o.onRetry then [.hookCall (attempt + 1) e] else []) ++
              [.sleep currentDelay] ++ rest.1,
            rest.2)
  else
    ([], .unexpectedFailure)
termination_by (o.retries + 1 - attempt).toNat
decreasing_by
  simp_wf
  omega

/-- The `if (timeout)` truthiness test of `src/retryit.ts`: a timer is armed
only when a timeout is present and non-zero (`0` and `undefined` are both
falsy). -/
def timerArmed : Option ℚ → Bool
  | none => false
  | some t => decide (t ≠ 0)

/-- The exported `retry` function: when a timer is armed, the loop races
against the timer and the race winner (abstracted as `timerFiresFirst`)
determines the outcome; otherwise the loop's outcome is returned directly. -/
def retry (o : RetryOptions ε α) (task : Nat → Except ε α) (jitter : Nat → ℚ)
    (timerFiresFirst : Bool) : Outcome ε α :=
  if timerArmed o.timeout then
    if timerFiresFirst then .timedOut
    else (retryPromise o task jitter 0 o.delay).2
  else
    (retryPromise o task jitter 0 o.delay).2

/-- Number of task invocations recorded in a trace. -/
def numInvokes (evs : List (Event ε)) : Nat :=
  evs.countP fun ev => match ev with | .invoke _ => true | _ => false

/-- Attempt numbers passed to the `onRetry` hook, in call order. -/
def hookAttempts (evs : List (Event ε)) : List Nat :=
  evs.filterMap fun ev => match ev with | .hookCall a _ => some a | _ => none

/-- Number of `onRetry` hook invocations recorded in a trace. -/
def numHookCalls (evs : List (Event ε)) : Nat :=
  (hookAttempts evs).length

/-- The sleep durations (values of `currentDelay` handed to `setTimeout`),
in order. -/
def sleeps (evs : List (Event ε)) : List ℚ :=
  evs.filterMap fun ev => match ev with | .sleep d => some d | _ => none

/-- Number of inter-attempt delays recorded in a trace. -/
def numSleeps (evs : List (Event ε)) : Nat :=
  (sleeps evs).length

/-- Number of `attempt++` increments recorded in a trace. -/
def numIncr (evs : List (Event ε)) : Nat :=
  evs.countP fun ev => match ev with | .incr _ => true | _ => false

/-- Number of `retryCondition` invocations recorded in a trace. -/
def numCondChecks (evs : List (Event ε)) : Nat :=
  evs.countP fun ev => match ev with | .condCheck _ _ => true | _ => false

/-- Number of `retryCondition` invocations that returned `true`
(failures deemed retryable). -/
def numCondTrue (evs : List (Event ε)) : Nat :=
  evs.countP fun ev => match ev with | .condCheck _ b => b | _ => false

/-- Number of fallback invocations recorded in a trace. -/
def numFallbackCalls (evs : List (Event ε)) : Nat :=
  evs.countP fun ev => match ev with | .fallbackCall => true | _ => false

/-- Outcome of the budget-exhausted branch as a function of the configured
fallback: fallback present and succeeding yields its value, fallback present
and failing propagates its error, no fallback re-raises the last error. -/
def exhaustedOutcome (fb : Option (Except ε α)) (e : ε) : Outcome ε α :=
  match fb with
  | some (.ok a) => .fallbackValue a
  | some (.error fe) => .fallbackError fe
  | none => .exhausted e

/-- Always-failing task over trivial error values, used in concrete runs. -/
def taskFailUnit : Nat → Except Unit Unit := fun _ => .error ()

/-- Task succeeding immediately, used in concrete runs. -/
def taskOkUnit : Nat → Except Unit Unit := fun _ => .ok ()

/-- Always-failing task whose n-th error is `n`, used in concrete runs. -/
def taskFailNat : Nat → Except Nat Unit := fun n => .error n

/-- Task failing on invocations 1 and 2 and succeeding on invocation 3. -/
def taskThirdTry : Nat → Except Nat Unit := fun n => if n < 3 then .error n else .ok ()

/-- Always-failing task used with the fallback policy. -/
def taskFailNatNat : Nat → Except Nat Nat := fun n => .error n

/-- Task always throwing a non-retriable error. -/
def taskNonRetriable : Nat → Except String Unit := fun _ => .error "Non-retriable error"

/-- The all-zero jitter stream, used in concrete runs. -/
def jitterZero : Nat → ℚ := fun _ => 0

/-- Concrete policy: 3 retries, delay 100 (the README's basic example). -/
def cfgPlain : RetryOptions Unit Unit := { retries := 3, delay := 100 }

/-- Concrete policy with the hook configured: 3 retries, delay 100. -/
def cfgHooked : RetryOptions Nat Unit := { retries := 3, delay := 100, onRetry := true }

/-- Concrete policy with the hook configured and a larger budget. -/
def cfgHooked5 : RetryOptions Nat Unit := { retries := 5, delay := 100, onRetry := true }

/-- Concrete policy whose retry condition rejects every error. -/
def cfgNoRetry : RetryOptions String Unit :=
  { retries := 3, delay := 100, retryCondition := fun _ => false }

/-- Concrete policy with a succeeding fallback. -/
def cfgFallback : RetryOptions Nat Nat :=
  { retries := 2, delay := 100, fallback := some (.ok 42) }

/-- Concrete policy with exponential backoff enabled. -/
def cfgBackoff : RetryOptions Unit Unit :=
  { retries := 2, delay := 100, exponentialBackoff := true }

/-- Concrete policy with a 150 time-unit timeout. -/
def cfgTimeout : RetryOptions Unit Unit := { retries := 3, delay := 100, timeout := some 150 }

/-- Concrete policy with a zero retry budget. -/
def cfgZeroRetries : RetryOptions Unit Unit := { retries := 0, delay := 100 }

/-- Concrete policy with a negative retry budget. -/
def cfgNegRetries : RetryOptions Unit Unit := { retries := -1, delay := 100 }

theorem numInvokes_append (xs ys : List (Event ε)) :
    numInvokes (xs ++ ys) = numInvokes xs + numInvokes ys := by
  simp [numInvokes]

theorem hookAttempts_append (xs ys : List (Event ε)) :
    hookAttempts (xs ++ ys) = hookAttempts xs ++ hookAttempts ys := by
  simp [hookAttempts]

theorem sleeps_append (xs ys : List (Event ε)) :
    sleeps (xs ++ ys) = sleeps xs ++ sleeps ys := by
  simp [sleeps]

theorem numIncr_append (xs ys : List (Event ε)) :
    numIncr (xs ++ ys) = numIncr xs + numIncr ys := by
  simp [numIncr]

theorem numCondTrue_append (xs ys : List (Event ε)) :
    numCondTrue (xs ++ ys) = numCondTrue xs + numCondTrue ys := by
  simp [numCondTrue]

theorem numFallbackCalls_append (xs ys : List (Event ε)) :
    numFallbackCalls (xs ++ ys) = numFallbackCalls xs + numFallbackCalls ys := by
  simp [numFallbackCalls]

/-- Key bound for C1: from any loop state `attempt = a` the number of task
invocations still to come is at most the remaining budget
`(retries + 1 - a).toNat`. -/
theorem numInvokes_retryPromise_le (o : RetryOptions ε α) (task : Nat → Except ε α)
    (jitter : Nat → ℚ) :
    ∀ (n a : Nat) (d : ℚ), (o.retries + 1 - a).toNat = n →
      numInvokes (retryPromise o task jitter a d).1 ≤ n := by
  intro n
  induction n with
  | zero =>
    intro a d hn
    rw [retryPromise, dif_neg (by omega)]
    simp [numInvokes]
  | succ m ih =>
    intro a d hn
    by_cases ha : (a : Int) ≤ o.retries
    · rw [retryPromise, dif_pos ha]
      cases htask : task (a + 1) with
      | ok v => simp [numInvokes]
      | error e =>
        by_cases hc : o.retryCondition e = false
        · simp only [if_pos hc]
          simp [numInvokes]
        · simp only [if_neg hc]
          by_cases hex : (a + 1 : Int) > o.retries
          · simp only [if_pos hex]
            cases hfb : o.fallback with
            | none => simp [numInvokes]
            | some fb =>
              cases fb with
              | ok w => simp [numInvokes]
              | error fe => simp [numInvokes]
          · simp only [if_neg hex]
            have hih := ih (a + 1)
              (if o.exponentialBackoff then d * 2 + jitter (a + 1) else d) (by omega)
            cases hr : o.onRetry <;>
              simp_all [numInvokes_append, numInvokes] <;> omega
    · rw [retryPromise, dif_neg ha]
      simp [numInvokes]

/-- Master lemma for runs whose every invocation fails with a retryable
error: from loop state `attempt = a` (with `a ≤ R = retries`) the run makes
`R + 1 - a` further invocations, calls the hook (when present) with attempt
numbers `a+1, …, R`, sleeps `R - a` times, increments the counter
`R + 1 - a` times, calls the fallback once when configured, and ends in the
exhausted outcome determined by the fallback and the last error. -/
theorem retryPromise_allFail (o : RetryOptions ε α) (task : Nat → Except ε α)
    (jitter : Nat → ℚ) (err : Nat → ε) (R : Nat)
    (hR : o.retries = (R : Int))
    (hfail : ∀ n, task n = .error (err n))
    (hcond : ∀ n, o.retryCondition (err n) = true) :
    ∀ (n a : Nat) (d : ℚ), R - a = n → a ≤ R →
      numInvokes (retryPromise o task jitter a d).1 = R + 1 - a ∧
      hookAttempts (retryPromise o task jitter a d).1 =
        (if o.onRetry then List.range' (a + 1) (R - a) else []) ∧
      numSleeps (retryPromise o task jitter a d).1 = R - a ∧
      numIncr (retryPromise o task jitter a d).1 = R + 1 - a ∧
      numFallbackCalls (retryPromise o task jitter a d).1 =
        (if o.fallback.isSome then 1 else 0) ∧
      (retryPromise o task jitter a d).2 = exhaustedOutcome o.fallback (err (R + 1)) := by
  intro n
  induction n with
  | zero =>
    intro a d hn ha
    have haR : a = R := by omega
    subst haR
    have hle : (a : Int) ≤ o.retries := by rw [hR]
    have hcnot : ¬ (o.retryCondition (err (a + 1)) = false) := by simp [hcond]
    have hgt : (a + 1 : Int) > o.retries := by rw [hR]; omega
    rw [retryPromise, dif_pos hle]
    cases htask : task (a + 1) with
    | ok v => exact absurd htask (by simp [hfail])
    | error e =>
      have he : e = err (a + 1) := by
        have hf := hfail (a + 1)
        rw [htask] at hf
        injection hf with h
      subst he
      dsimp only
      rw [if_neg hcnot, if_pos hgt]
      cases hfb : o.fallback with
      | none =>
        simp [numInvokes, hookAttempts, numSleeps, sleeps, numIncr,
          numFallbackCalls, exhaustedOutcome, hfb]
      | some fb =>
        cases fb with
        | ok w =>
          simp [numInvokes, hookAttempts, numSleeps, sleeps, numIncr,
            numFallbackCalls, exhaustedOutcome, hfb]
        | error fe =>
          simp [numInvokes, hookAttempts, numSleeps, sleeps, numIncr,
            numFallbackCalls, exhaustedOutcome, hfb]
  | succ m ih =>
    intro a d hn ha
    have ha' : a < R := by omega
    have hle : (a : Int) ≤ o.retries := by rw [hR]; exact_mod_cast le_of_lt ha'
    have hngt : ¬ ((a + 1 : Int) > o.retries) := by rw [hR]; push_cast; omega
    rw [retryPromise, dif_pos hle]
    cases htask : task (a + 1) with
    | ok v => exact absurd htask (by simp [hfail])
    | error e =>
      have he : e = err (a + 1) := by
        have hf := hfail (a + 1)
        rw [htask] at hf
        injection hf with h
      subst he
      have hcnot : ¬ (o.retryCondition (err (a + 1)) = false) := by simp [hcond]
      dsimp only
      rw [if_neg hcnot, if_neg hngt]
      have hih := ih (a + 1)
        (if o.exponentialBackoff then d * 2 + jitter (a + 1) else d)
        (by omega) (by omega)
      obtain ⟨h1, h2, h3, h4, h5, h6⟩ := hih
      have hrange : List.range' (a + 1) (R - a) =
          (a + 1) :: List.range' (a + 2) (R - (a + 1)) := by
        have hRa : R - a = (R - (a + 1)) + 1 := by omega
        rw [hRa, List.range'_succ]
      cases hr : o.onRetry <;>
        simp_all [numInvokes_append, hookAttempts_append, sleeps_append,
          numIncr_append, numFallbackCalls_append, numInvokes, hookAttempts,
          numSleeps, sleeps, numIncr, numFallbackCalls] <;>
        omega

/-- Master lemma for runs that succeed on invocation `k` after retryable
failures on invocations `1, …, k-1`: from loop state `attempt = a < k`
(with `k ≤ R + 1 = retries + 1`) the run makes `k - a` further invocations,
calls the hook (when present) with attempt numbers `a+1, …, k-1`, sleeps
`k - 1 - a` times, never calls the fallback, and returns attempt `k`'s
result. -/
theorem retryPromise_succeedAt (o : RetryOptions ε α) (task : Nat → Except ε α)
    (jitter : Nat → ℚ) (err : Nat → ε) (v : α) (R k : Nat)
    (hR : o.retries = (R : Int)) (hk1 : 1 ≤ k) (hkR : k ≤ R + 1)
    (hsucc : task k = .ok v)
    (hfail : ∀ n, 1 ≤ n → n < k → task n = .error (err n))
    (hcond : ∀ n, 1 ≤ n → n < k → o.retryCondition (err n) = true) :
    ∀ (n a : Nat) (d : ℚ), k - 1 - a = n → a < k →
      numInvokes (retryPromise o task jitter a d).1 = k - a ∧
      hookAttempts (retryPromise o task jitter a d).1 =
        (if o.onRetry then List.range' (a + 1) (k - 1 - a) else []) ∧
      numSleeps (retryPromise o task jitter a d).1 = k - 1 - a ∧
      numFallbackCalls (retryPromise o task jitter a d).1 = 0 ∧
      (retryPromise o task jitter a d).2 = .success v := by
  intro n
  induction n with
  | zero =>
    intro a d hn ha
    have hak : a + 1 = k := by omega
    have hle : (a : Int) ≤ o.retries := by rw [hR]; exact_mod_cast by omega
    rw [retryPromise, dif_pos hle]
    cases htask : task (a + 1) with
    | ok w =>
      rw [hak, hsucc] at htask
      injection htask with h
      subst h
      simp [numInvokes, hookAttempts, numSleeps, sleeps, numFallbackCalls]
      omega
    | error e =>
      rw [hak, hsucc] at htask
      exact Except.noConfusion htask
  | succ m ih =>
    intro a d hn ha
    have ha' : a + 1 < k := by omega
    have hle : (a : Int) ≤ o.retries := by rw [hR]; exact_mod_cast by omega
    have hngt : ¬ ((a + 1 : Int) > o.retries) := by rw [hR]; push_cast; omega
    rw [retryPromise, dif_pos hle]
    cases htask : task (a + 1) with
    | ok w =>
      have hf := hfail (a + 1) (by omega) ha'
      rw [htask] at hf
      exact Except.noConfusion hf
    | error e =>
      have he : e = err (a + 1) := by
        have hf := hfail (a + 1) (by omega) ha'
        rw [htask] at hf
        injection hf with h
      have hcnot : ¬ (o.retryCondition (err (a + 1)) = false) := by
        simp [hcond (a + 1) (by omega) ha']
      subst he
      dsimp only
      rw [if_neg hcnot, if_neg hngt]
      have hih := ih (a + 1)
        (if o.exponentialBackoff then d * 2 + jitter (a + 1) else d)
        (by omega) (by omega)
      obtain ⟨h1, h2, h3, h4, h5⟩ := hih
      have hrange : List.range' (a + 1) (k - 1 - a) =
          (a + 1) :: List.range' (a + 2) (k - 1 - (a + 1)) := by
        have hka : k - 1 - a = (k - 1 - (a + 1)) + 1 := by omega
        rw [hka, List.range'_succ]
      cases hr : o.onRetry <;>
        simp_all [numInvokes_append, hookAttempts_append, sleeps_append,
          numIncr_append, numFallbackCalls_append, numInvokes, hookAttempts,
          numSleeps, sleeps, numIncr, numFallbackCalls] <;>
        omega

/-- In every run, the `attempt++` statement executes exactly once per failure
that `retryCondition` deems retryable — including the final exhausting
failure — and never on success or on a non-retryable failure. -/
theorem numIncr_eq_numCondTrue (o : RetryOptions ε α) (task : Nat → Except ε α)
    (jitter : Nat → ℚ) :
    ∀ (n a : Nat) (d : ℚ), (o.retries + 1 - a).toNat = n →
      numIncr (retryPromise o task jitter a d).1 =
        numCondTrue (retryPromise o task jitter a d).1 := by
  intro n
  induction n with
  | zero =>
    intro a d hn
    rw [retryPromise, dif_neg (by omega)]
    simp [numIncr, numCondTrue]
  | succ m ih =>
    intro a d hn
    by_cases ha : (a : Int) ≤ o.retries
    · rw [retryPromise, dif_pos ha]
      cases htask : task (a + 1) with
      | ok v => simp [numIncr, numCondTrue]
      | error e =>
        dsimp only
        by_cases hc : o.retryCondition e = false
        · rw [if_pos hc]
          simp [numIncr, numCondTrue]
        · rw [if_neg hc]
          by_cases hex : (a + 1 : Int) > o.retries
          · rw [if_pos hex]
            cases hfb : o.fallback with
            | none => simp [numIncr, numCondTrue]
            | some fb =>
              cases fb with
              | ok w => simp [numIncr, numCondTrue]
              | error fe => simp [numIncr, numCondTrue]
          · rw [if_neg hex]
            have hih := ih (a + 1)
              (if o.exponentialBackoff then d * 2 + jitter (a + 1) else d) (by omega)
            cases hr : o.onRetry <;>
              simp_all [numIncr_append, numCondTrue_append, numIncr, numCondTrue]
    · rw [retryPromise, dif_neg ha]
      simp [numIncr, numCondTrue]

/-- The inner loop never produces the timeout outcome: that outcome comes
only from the timer race in `retry`. -/
theorem retryPromise_ne_timedOut (o : RetryOptions ε α) (task : Nat → Except ε α)
    (jitter : Nat → ℚ) :
    ∀ (n a : Nat) (d : ℚ), (o.retries + 1 - a).toNat = n →
      (retryPromise o task jitter a d).2 ≠ Outcome.timedOut := by
  intro n
  induction n with
  | zero =>
    intro a d hn
    rw [retryPromise, dif_neg (by omega)]
    simp
  | succ m ih =>
    intro a d hn
    by_cases ha : (a : Int) ≤ o.retries
    · rw [retryPromise, dif_pos ha]
      cases htask : task (a + 1) with
      | ok v => simp
      | error e =>
        dsimp only
        by_cases hc : o.retryCondition e = false
        · rw [if_pos hc]
          simp
        · rw [if_neg hc]
          by_cases hex : (a + 1 : Int) > o.retries
          · rw [if_pos hex]
            cases hfb : o.fallback with
            | none => simp
            | some fb =>
              cases fb with
              | ok w => simp
              | error fe => simp
          · rw [if_neg hex]
            have hih := ih (a + 1)
              (if o.exponentialBackoff then d * 2 + jitter (a + 1) else d) (by omega)
            simpa using hih
    · rw [retryPromise, dif_neg ha]
      simp

/-- As long as the loop is entered with a non-spent budget, its outcome is
one of the documented terminal outcomes (never the trailing
`throw new Error('Retry failed unexpectedly')`). -/
theorem retryPromise_isDocumented (o : RetryOptions ε α) (task : Nat → Except ε α)
    (jitter : Nat → ℚ) :
    ∀ (n a : Nat) (d : ℚ), (o.retries + 1 - a).toNat = n → (a : Int) ≤ o.retries →
      ((retryPromise o task jitter a d).2).isDocumented = true := by
  intro n
  induction n with
  | zero =>
    intro a d hn ha
    omega
  | succ m ih =>
    intro a d hn ha
    rw [retryPromise, dif_pos ha]
    cases htask : task (a + 1) with
    | ok v => simp [Outcome.isDocumented]
    | error e =>
      dsimp only
      by_cases hc : o.retryCondition e = false
      · rw [if_pos hc]
        simp [Outcome.isDocumented]
      · rw [if_neg hc]
        by_cases hex : (a + 1 : Int) > o.retries
        · rw [if_pos hex]
          cases hfb : o.fallback with
          | none => simp [Outcome.isDocumented]
          | some fb =>
            cases fb with
            | ok w => simp [Outcome.isDocumented]
            | error fe => simp [Outcome.isDocumented]
        · rw [if_neg hex]
          have hih := ih (a + 1)
            (if o.exponentialBackoff then d * 2 + jitter (a + 1) else d)
            (by omega) (by omega)
          simpa using hih

/-- With exponential backoff enabled and every jitter draw in `[0, 100)`, if
the current delay on entry to the loop lies in
`[100·2^s, 100·2^(s+1) - 100]`, then every recorded sleep duration satisfies
the corresponding shifted bounds: the i-th further sleep (0-based) lies in
`[100·2^(s+i), 100·2^(s+i+1) - 100]`. -/
theorem retryPromise_sleeps_bounds (o : RetryOptions ε α) (task : Nat → Except ε α)
    (jitter : Nat → ℚ) (hbo : o.exponentialBackoff = true)
    (hj : ∀ i, 0 ≤ jitter i ∧ jitter i < 100) :
    ∀ (n a : Nat) (d : ℚ) (s : Nat), (o.retries + 1 - a).toNat = n →
      100 * 2 ^ s ≤ d → d ≤ 100 * 2 ^ (s + 1) - 100 →
      ∀ (i : Nat) (x : ℚ), (sleeps (retryPromise o task jitter a d).1)[i]? = some x →
        100 * 2 ^ (s + i) ≤ x ∧ x ≤ 100 * 2 ^ (s + i + 1) - 100 := by
  intro n
  induction n with
  | zero =>
    intro a d s hn hlo hhi i x hx
    rw [retryPromise, dif_neg (by omega)] at hx
    simp [sleeps] at hx
  | succ m ih =>
    intro a d s hn hlo hhi i x hx
    by_cases ha : (a : Int) ≤ o.retries
    · rw [retryPromise, dif_pos ha] at hx
      cases htask : task (a + 1) with
      | ok v =>
        rw [htask] at hx
        simp [sleeps] at hx
      | error e =>
        rw [htask] at hx
        dsimp only at hx
        by_cases hc : o.retryCondition e = false
        · rw [if_pos hc] at hx
          simp [sleeps] at hx
        · rw [if_neg hc] at hx
          by_cases hex : (a + 1 : Int) > o.retries
          · rw [if_pos hex] at hx
            cases hfb : o.fallback with
            | none =>
              rw [hfb] at hx
              simp [sleeps] at hx
            | some fb =>
              cases fb with
              | ok w =>
                rw [hfb] at hx
                simp [sleeps] at hx
              | error fe =>
                rw [hfb] at hx
                simp [sleeps] at hx
          · rw [if_neg hex] at hx
            have hpow : (2 : ℚ) ^ (s + 1) = 2 ^ s * 2 := pow_succ 2 s
            have hj1 := hj (a + 1)
            have hlo2 : 100 * 2 ^ (s + 1) ≤ d * 2 + jitter (a + 1) := by
              rw [hpow]; nlinarith [hj1.1]
            have hhi2 : d * 2 + jitter (a + 1) ≤ 100 * 2 ^ (s + 1 + 1) - 100 := by
              have hpow2 : (2 : ℚ) ^ (s + 1 + 1) = 2 ^ (s + 1) * 2 := pow_succ 2 (s + 1)
              rw [hpow2, hpow]; nlinarith [hj1.2]
            cases i with
            | zero =>
              cases hr : o.onRetry <;> simp [sleeps, hbo, hr] at hx <;>
                subst hx <;> constructor
              · simpa using hlo
              · simpa using hhi
              · simpa using hlo
              · simpa using hhi
            | succ j =>
              have hx2 : (sleeps (retryPromise o task jitter (a + 1)
                  (d * 2 + jitter (a + 1))).1)[j]? = some x := by
                cases hr : o.onRetry <;> simpa [sleeps, hbo, hr] using hx
              have hrec := ih (a + 1) (d * 2 + jitter (a + 1)) (s + 1)
                (by omega) hlo2 hhi2 j x hx2
              have hs1 : s + 1 + j = s + (j + 1) := by omega
              rw [hs1] at hrec
              exact hrec
    · rw [retryPromise, dif_neg ha] at hx
      simp [sleeps] at hx

/-- The first sleep of a run (when any occurs) uses exactly the current delay
the loop was entered with: doubling and jitter are applied only after the
delay has been awaited, so they affect only later retries. -/
theorem retryPromise_sleeps_head (o : RetryOptions ε α) (task : Nat → Except ε α)
    (jitter : Nat → ℚ) (a : Nat) (d : ℚ) :
    (sleeps (retryPromise o task jitter a d).1).head? = none ∨
    (sleeps (retryPromise o task jitter a d).1).head? = some d := by
  rw [retryPromise]
  by_cases ha : (a : Int) ≤ o.retries
  · rw [dif_pos ha]
    cases htask : task (a + 1) with
    | ok v => left; simp [sleeps]
    | error e =>
      dsimp only
      by_cases hc : o.retryCondition e = false
      · rw [if_pos hc]; left; simp [sleeps]
      · rw [if_neg hc]
        by_cases hex : (a + 1 : Int) > o.retries
        · rw [if_pos hex]
          cases hfb : o.fallback with
          | none => left; simp [sleeps]
          | some fb =>
            cases fb with
            | ok w => left; simp [sleeps]
            | error fe => left; simp [sleeps]
        · rw [if_neg hex]
          right
          cases hr : o.onRetry <;> simp [sleeps]
  · rw [dif_neg ha]
    left
    simp [sleeps]

/-- The loop reads only the `retries`, `exponentialBackoff`, `onRetry`,
`retryCondition` and `fallback` fields of the options record: two records
agreeing on those fields drive identical runs.  In particular the loop is
independent of the `timeout` field. -/
theorem retryPromise_congr (o o' : RetryOptions ε α)
    (h1 : o.retries = o'.retries) (h2 : o.exponentialBackoff = o'.exponentialBackoff)
    (h3 : o.onRetry = o'.onRetry) (h4 : o.retryCondition = o'.retryCondition)
    (h5 : o.fallback = o'.fallback) (task : Nat → Except ε α) (jitter : Nat → ℚ) :
    ∀ (n a : Nat) (d : ℚ), (o.retries + 1 - a).toNat = n →
      retryPromise o task jitter a d = retryPromise o' task jitter a d := by
  intro n
  induction n with
  | zero =>
    intro a d hn
    conv_lhs => rw [retryPromise]
    conv_rhs => rw [retryPromise]
    rw [dif_neg (by omega), dif_neg (by rw [← h1]; omega)]
  | succ m ih =>
    intro a d hn
    by_cases ha : (a : Int) ≤ o.retries
    · conv_lhs => rw [retryPromise]
      conv_rhs => rw [retryPromise]
      
      rw [dif_pos ha, dif_pos (show (a : Int) ≤ o'.retries from h1 ▸ ha)]
      cases htask : task (a + 1) with
      | ok v => rfl
      | error e =>
        dsimp only
        rw [← h4, ← h5, ← h2, ← h3, ← h1]
        by_cases hc : o.retryCondition e = false
        · rw [if_pos hc, if_pos hc]
        · rw [if_neg hc, if_neg hc]
          by_cases hex : (a + 1 : Int) > o.retries
          · rw [if_pos hex, if_pos hex]
          · rw [if_neg hex, if_neg hex]
            have hih := ih (a + 1)
              (if o.exponentialBackoff then d * 2 + jitter (a + 1) else d) (by omega)
            rw [hih]
    · conv_lhs => rw [retryPromise]
      conv_rhs => rw [retryPromise]
      rw [dif_neg ha, dif_neg (by rw [← h1]; exact ha)]

/-- C1: for every operation and every policy with `retries = R ≥ 0`, a single
call to `retry`'s attempt loop invokes the operation at most `R + 1` times in
total, regardless of how the attempts succeed or fail. -/
theorem spec_C1_invocation_bound (o : RetryOptions ε α) (task : Nat → Except ε α)
    (jitter : Nat → ℚ) (R : Nat) (hR : o.retries = (R : Int)) :
    numInvokes (retryPromise o task jitter 0 o.delay).1 ≤ R + 1 := by
  have h := numInvokes_retryPromise_le o task jitter
    ((o.retries + 1 - (0 : Nat)).toNat) 0 o.delay rfl
  have ht : (o.retries + 1 - (0 : Nat)).toNat = R + 1 := by rw [hR]; omega
  omega

/-- Witness for C1: the `retries = 3` policy with an always-failing task
makes at most 4 invocations. -/
theorem spec_C1_invocation_bound_witness :
    cfgPlain.retries = ((3 : Nat) : Int) ∧
    numInvokes (retryPromise cfgPlain taskFailUnit jitterZero 0 cfgPlain.delay).1 ≤ 3 + 1 :=
  ⟨rfl, spec_C1_invocation_bound cfgPlain taskFailUnit jitterZero 3 rfl⟩

/-- C2: for an operation that fails on every invocation with a retryable
error, with `retries = R`, no fallback and the `onRetry` hook configured,
the loop invokes the operation exactly `R + 1` times, invokes `onRetry`
exactly `R` times with attempt numbers `1, …, R` (never for the final
exhausting failure), and rejects with the last attempt's error unchanged. -/
theorem spec_C2_always_fail (o : RetryOptions ε α) (task : Nat → Except ε α)
    (jitter : Nat → ℚ) (err : Nat → ε) (R : Nat)
    (hR : o.retries = (R : Int))
    (hfail : ∀ n, task n = .error (err n))
    (hcond : ∀ n, o.retryCondition (err n) = true)
    (hfb : o.fallback = none)
    (hhook : o.onRetry = true) :
    numInvokes (retryPromise o task jitter 0 o.delay).1 = R + 1 ∧
    hookAttempts (retryPromise o task jitter 0 o.delay).1 = List.range' 1 R ∧
    numHookCalls (retryPromise o task jitter 0 o.delay).1 = R ∧
    (retryPromise o task jitter 0 o.delay).2 = .exhausted (err (R + 1)) := by
  have h := retryPromise_allFail o task jitter err R hR hfail hcond R 0 o.delay
    (by omega) (by omega)
  obtain ⟨h1, h2, h3, h4, h5, h6⟩ := h
  have h2s : hookAttempts (retryPromise o task jitter 0 o.delay).1 = List.range' 1 R := by
    rw [h2, hhook]
    simp
  refine ⟨by omega, h2s, ?_, ?_⟩
  · simp [numHookCalls, h2s]
  · rw [h6, hfb]
    rfl

/-- Witness for C2: `retries = 3`, task always throws error `n` on the n-th
call; 4 invocations, hooks at attempts 1, 2, 3, rejection with error 4. -/
theorem spec_C2_always_fail_witness :
    cfgHooked.retries = ((3 : Nat) : Int) ∧
    (∀ n, taskFailNat n = .error n) ∧
    (∀ n : Nat, cfgHooked.retryCondition n = true) ∧
    cfgHooked.fallback = none ∧
    cfgHooked.onRetry = true ∧
    (numInvokes (retryPromise cfgHooked taskFailNat jitterZero 0 cfgHooked.delay).1 = 3 + 1 ∧
      hookAttempts (retryPromise cfgHooked taskFailNat jitterZero 0 cfgHooked.delay).1 =
        List.range' 1 3 ∧
      numHookCalls (retryPromise cfgHooked taskFailNat jitterZero 0 cfgHooked.delay).1 = 3 ∧
      (retryPromise cfgHooked taskFailNat jitterZero 0 cfgHooked.delay).2 =
        .exhausted 4) :=
  ⟨rfl, fun _ => rfl, fun _ => rfl, rfl, rfl,
    spec_C2_always_fail cfgHooked taskFailNat jitterZero (fun n => n) 3 rfl
      (fun _ => rfl) (fun _ => rfl) rfl rfl⟩

/-- C3: for an operation that succeeds on attempt `k ≤ retries + 1` after
retryable failures on attempts `1, …, k-1`, the loop returns attempt `k`'s
result, invokes the operation exactly `k` times, invokes `onRetry` exactly
`k - 1` times (attempt numbers `1, …, k-1`), and sleeps exactly `k - 1`
times; in particular a first-attempt success means one invocation, no delay
and no hook calls, and no further attempts occur after a success. -/
theorem spec_C3_success_at_k (o : RetryOptions ε α) (task : Nat → Except ε α)
    (jitter : Nat → ℚ) (err : Nat → ε) (v : α) (R k : Nat)
    (hR : o.retries = (R : Int)) (hk1 : 1 ≤ k) (hkR : k ≤ R + 1)
    (hsucc : task k = .ok v)
    (hfail : ∀ n, 1 ≤ n → n < k → task n = .error (err n))
    (hcond : ∀ n, 1 ≤ n → n < k → o.retryCondition (err n) = true)
    (hhook : o.onRetry = true) :
    numInvokes (retryPromise o task jitter 0 o.delay).1 = k ∧
    numHookCalls (retryPromise o task jitter 0 o.delay).1 = k - 1 ∧
    hookAttempts (retryPromise o task jitter 0 o.delay).1 = List.range' 1 (k - 1) ∧
    numSleeps (retryPromise o task jitter 0 o.delay).1 = k - 1 ∧
    (retryPromise o task jitter 0 o.delay).2 = .success v := by
  have h := retryPromise_succeedAt o task jitter err v R k hR hk1 hkR hsucc hfail hcond
    (k - 1) 0 o.delay (by omega) (by omega)
  obtain ⟨h1, h2, h3, h4, h5⟩ := h
  have h2s : hookAttempts (retryPromise o task jitter 0 o.delay).1 =
      List.range' 1 (k - 1) := by
    rw [h2, hhook]
    simp
  refine ⟨by omega, ?_, h2s, by omega, h5⟩
  simp [numHookCalls, h2s]

/-- Witness for C3: `retries = 5`, task fails on calls 1 and 2 and succeeds
on call 3; the run returns the success after exactly 3 invocations, 2 hook
calls (attempts 1 and 2) and 2 sleeps. -/
theorem spec_C3_success_at_k_witness :
    cfgHooked5.retries = ((5 : Nat) : Int) ∧
    (1 : Nat) ≤ 3 ∧
    (3 : Nat) ≤ 5 + 1 ∧
    taskThirdTry 3 = .ok () ∧
    (∀ n, 1 ≤ n → n < 3 → taskThirdTry n = .error n) ∧
    (∀ n : Nat, 1 ≤ n → n < 3 → cfgHooked5.retryCondition n = true) ∧
    cfgHooked5.onRetry = true ∧
    (numInvokes (retryPromise cfgHooked5 taskThirdTry jitterZero 0 cfgHooked5.delay).1 = 3 ∧
      numHookCalls (retryPromise cfgHooked5 taskThirdTry jitterZero 0 cfgHooked5.delay).1 =
        3 - 1 ∧
      hookAttempts (retryPromise cfgHooked5 taskThirdTry jitterZero 0 cfgHooked5.delay).1 =
        List.range' 1 (3 - 1) ∧
      numSleeps (retryPromise cfgHooked5 taskThirdTry jitterZero 0 cfgHooked5.delay).1 =
        3 - 1 ∧
      (retryPromise cfgHooked5 taskThirdTry jitterZero 0 cfgHooked5.delay).2 =
        .success ()) :=
  ⟨rfl, by decide, by decide, rfl,
    fun n _ h2 => by simp [taskThirdTry, h2],
    fun _ _ _ => rfl, rfl,
    spec_C3_success_at_k cfgHooked5 taskThirdTry jitterZero (fun n => n) () 5 3
      rfl (by decide) (by decide) rfl
      (fun n _ h2 => by simp [taskThirdTry, h2])
      (fun _ _ _ => rfl) rfl⟩

/-- C4: on a failure for which `retryCondition` returns `false` the loop
aborts immediately and re-raises that exact error, whatever the remaining
budget: the whole run from that attempt is one invocation and one
`retryCondition` call, with no counter increment, no hook call and no delay
(the condition is checked before `attempt++` and before any sleep). -/
theorem spec_C4_nonretryable (o : RetryOptions ε α) (task : Nat → Except ε α)
    (jitter : Nat → ℚ) (a : Nat) (d : ℚ) (e : ε)
    (ha : (a : Int) ≤ o.retries)
    (htask : task (a + 1) = .error e)
    (hc : o.retryCondition e = false) :
    retryPromise o task jitter a d =
      ([.invoke (a + 1), .condCheck e false], .nonRetryable e) ∧
    numInvokes (retryPromise o task jitter a d).1 = 1 ∧
    numCondChecks (retryPromise o task jitter a d).1 = 1 ∧
    numHookCalls (retryPromise o task jitter a d).1 = 0 ∧
    numSleeps (retryPromise o task jitter a d).1 = 0 ∧
    numIncr (retryPromise o task jitter a d).1 = 0 := by
  have heq : retryPromise o task jitter a d =
      ([.invoke (a + 1), .condCheck e false], .nonRetryable e) := by
    rw [retryPromise, dif_pos ha, htask]
    dsimp only
    rw [if_pos hc]
  refine ⟨heq, ?_, ?_, ?_, ?_, ?_⟩ <;> rw [heq] <;>
    simp [numInvokes, numCondChecks, numHookCalls, hookAttempts, numSleeps,
      sleeps, numIncr]

/-- Witness for C4: a policy whose condition rejects every error, with a
full remaining budget, surfaces the first failure after exactly one
invocation and one condition check. -/
theorem spec_C4_nonretryable_witness :
    ((0 : Nat) : Int) ≤ cfgNoRetry.retries ∧
    taskNonRetriable (0 + 1) = .error "Non-retriable error" ∧
    cfgNoRetry.retryCondition "Non-retriable error" = false ∧
    (retryPromise cfgNoRetry taskNonRetriable jitterZero 0 100 =
      ([.invoke 1, .condCheck "Non-retriable error" false],
        .nonRetryable "Non-retriable error") ∧
      numInvokes (retryPromise cfgNoRetry taskNonRetriable jitterZero 0 100).1 = 1 ∧
      numCondChecks (retryPromise cfgNoRetry taskNonRetriable jitterZero 0 100).1 = 1 ∧
      numHookCalls (retryPromise cfgNoRetry taskNonRetriable jitterZero 0 100).1 = 0 ∧
      numSleeps (retryPromise cfgNoRetry taskNonRetriable jitterZero 0 100).1 = 0 ∧
      numIncr (retryPromise cfgNoRetry taskNonRetriable jitterZero 0 100).1 = 0) :=
  ⟨by decide, rfl, rfl,
    spec_C4_nonretryable cfgNoRetry taskNonRetriable jitterZero 0 100
      "Non-retriable error" (by decide) rfl rfl⟩

/-- C5: when all retries are exhausted and a fallback is configured, the
loop invokes the fallback exactly once (never retried) and resolves with the
fallback's result; when the fallback itself fails, its error propagates
unchanged. -/
theorem spec_C5_fallback (o : RetryOptions ε α) (task : Nat → Except ε α)
    (jitter : Nat → ℚ) (err : Nat → ε) (R : Nat) (fb : Except ε α)
    (hR : o.retries = (R : Int))
    (hfail : ∀ n, task n = .error (err n))
    (hcond : ∀ n, o.retryCondition (err n) = true)
    (hfb : o.fallback = some fb) :
    numFallbackCalls (retryPromise o task jitter 0 o.delay).1 = 1 ∧
    (retryPromise o task jitter 0 o.delay).2 = exhaustedOutcome (some fb) (err (R + 1)) ∧
    (∀ w, fb = .ok w → (retryPromise o task jitter 0 o.delay).2 = .fallbackValue w) ∧
    (∀ fe, fb = .error fe →
      (retryPromise o task jitter 0 o.delay).2 = .fallbackError fe) := by
  have h := retryPromise_allFail o task jitter err R hR hfail hcond R 0 o.delay
    (by omega) (by omega)
  obtain ⟨h1, h2, h3, h4, h5, h6⟩ := h
  rw [hfb] at h5 h6
  refine ⟨by simpa using h5, h6, ?_, ?_⟩
  · intro w hw
    rw [h6, hw]
    rfl
  · intro fe hfe
    rw [h6, hfe]
    rfl

/-- Witness for C5: `retries = 2` with a succeeding fallback: the fallback
is called once and its value 42 is returned. -/
theorem spec_C5_fallback_witness :
    cfgFallback.retries = ((2 : Nat) : Int) ∧
    (∀ n, taskFailNatNat n = .error n) ∧
    (∀ n : Nat, cfgFallback.retryCondition n = true) ∧
    cfgFallback.fallback = some (.ok 42) ∧
    (numFallbackCalls
        (retryPromise cfgFallback taskFailNatNat jitterZero 0 cfgFallback.delay).1 = 1 ∧
      (retryPromise cfgFallback taskFailNatNat jitterZero 0 cfgFallback.delay).2 =
        exhaustedOutcome (some (.ok 42)) 3 ∧
      (∀ w, (.ok 42 : Except Nat Nat) = .ok w →
        (retryPromise cfgFallback taskFailNatNat jitterZero 0 cfgFallback.delay).2 =
          .fallbackValue w) ∧
      (∀ fe, (.ok 42 : Except Nat Nat) = .error fe →
        (retryPromise cfgFallback taskFailNatNat jitterZero 0 cfgFallback.delay).2 =
          .fallbackError fe)) :=
  ⟨rfl, fun _ => rfl, fun _ => rfl, rfl,
    spec_C5_fallback cfgFallback taskFailNatNat jitterZero (fun n => n) 2 (.ok 42)
      rfl (fun _ => rfl) (fun _ => rfl) rfl⟩

/-- C6: with exponential backoff enabled and `delay = 100`, for every jitter
stream with draws in `[0, 100)` and every task, the sequence of recorded
inter-attempt delays is non-decreasing, the i-th delay (1-based `i`, here
0-based index `i`) satisfies `100·2^i ≤ delay ∧ delay < 100·2^(i+1) + 100`,
and the first delay is exactly the base delay 100: doubling and jitter are
applied only after the current delay has been awaited, affecting only
subsequent retries. -/
theorem spec_C6_backoff (o : RetryOptions ε α) (task : Nat → Except ε α)
    (jitter : Nat → ℚ)
    (hbo : o.exponentialBackoff = true) (hdelay : o.delay = 100)
    (hj : ∀ i, 0 ≤ jitter i ∧ jitter i < 100) :
    (∀ (i : Nat) (x y : ℚ),
      (sleeps (retryPromise o task jitter 0 o.delay).1)[i]? = some x →
      (sleeps (retryPromise o task jitter 0 o.delay).1)[i + 1]? = some y → x ≤ y) ∧
    (∀ (i : Nat) (x : ℚ), (sleeps (retryPromise o task jitter 0 o.delay).1)[i]? = some x →
      100 * 2 ^ i ≤ x ∧ x < 100 * 2 ^ (i + 1) + 100) ∧
    ((sleeps (retryPromise o task jitter 0 o.delay).1).head? = none ∨
      (sleeps (retryPromise o task jitter 0 o.delay).1).head? = some 100) := by
  have hb := retryPromise_sleeps_bounds o task jitter hbo hj
    ((o.retries + 1 - (0 : Nat)).toNat) 0 o.delay 0 rfl
    (by rw [hdelay]; norm_num) (by rw [hdelay]; norm_num)
  refine ⟨?_, ?_, ?_⟩
  · intro i x y hx hy
    have h1 := (hb i x hx).2
    have h2 := (hb (i + 1) y hy).1
    have he1 : 0 + i + 1 = i + 1 := by omega
    have he2 : 0 + (i + 1) = i + 1 := by omega
    rw [he1] at h1
    rw [he2] at h2
    linarith
  · intro i x hx
    have h1 := hb i x hx
    have he1 : 0 + i = i := by omega
    rw [he1] at h1
    exact ⟨h1.1, by linarith [h1.2]⟩
  · rcases retryPromise_sleeps_head o task jitter 0 o.delay with h | h
    · exact Or.inl h
    · right
      rw [h, hdelay]

/-- Witness for C6: the backoff policy with `retries = 2`, an always-failing
task and the all-zero jitter stream satisfies the delay bounds. -/
theorem spec_C6_backoff_witness :
    cfgBackoff.exponentialBackoff = true ∧
    cfgBackoff.delay = 100 ∧
    (∀ i, 0 ≤ jitterZero i ∧ jitterZero i < 100) ∧
    ((∀ (i : Nat) (x y : ℚ),
        (sleeps (retryPromise cfgBackoff taskFailUnit jitterZero 0
          cfgBackoff.delay).1)[i]? = some x →
        (sleeps (retryPromise cfgBackoff taskFailUnit jitterZero 0
          cfgBackoff.delay).1)[i + 1]? = some y → x ≤ y) ∧
      (∀ (i : Nat) (x : ℚ),
        (sleeps (retryPromise cfgBackoff taskFailUnit jitterZero 0
          cfgBackoff.delay).1)[i]? = some x →
        100 * 2 ^ i ≤ x ∧ x < 100 * 2 ^ (i + 1) + 100) ∧
      ((sleeps (retryPromise cfgBackoff taskFailUnit jitterZero 0
          cfgBackoff.delay).1).head? = none ∨
        (sleeps (retryPromise cfgBackoff taskFailUnit jitterZero 0
          cfgBackoff.delay).1).head? = some 100)) :=
  ⟨rfl, rfl, fun _ => ⟨le_refl 0, by show (0 : ℚ) < 100; decide⟩,
    spec_C6_backoff cfgBackoff taskFailUnit jitterZero rfl rfl
      (fun _ => ⟨le_refl 0, by show (0 : ℚ) < 100; decide⟩)⟩

/-- C7: when a timeout timer is armed and the timer wins the race against
the attempt loop, the call fails with the distinct timeout outcome — an
outcome the loop itself can never produce, whatever the task (even one that
would eventually succeed) and however many attempts remain. -/
theorem spec_C7_timeout (o : RetryOptions ε α) (task : Nat → Except ε α)
    (jitter : Nat → ℚ) (h : timerArmed o.timeout = true) :
    retry o task jitter true = Outcome.timedOut ∧
    (∀ (task2 : Nat → Except ε α) (jitter2 : Nat → ℚ) (a : Nat) (d : ℚ),
      (retryPromise o task2 jitter2 a d).2 ≠ Outcome.timedOut) := by
  constructor
  · rw [retry, if_pos h, if_pos rfl]
  · intro task2 jitter2 a d
    exact retryPromise_ne_timedOut o task2 jitter2 ((o.retries + 1 - a).toNat) a d rfl

/-- Witness for C7: the policy with `timeout = 150` arms the timer, and a
timer win yields the timeout outcome even for a task succeeding at once. -/
theorem spec_C7_timeout_witness :
    timerArmed cfgTimeout.timeout = true ∧
    (retry cfgTimeout taskOkUnit jitterZero true = Outcome.timedOut ∧
      (∀ (task2 : Nat → Except Unit Unit) (jitter2 : Nat → ℚ) (a : Nat) (d : ℚ),
        (retryPromise cfgTimeout task2 jitter2 a d).2 ≠ Outcome.timedOut)) :=
  ⟨by decide, spec_C7_timeout cfgTimeout taskOkUnit jitterZero (by decide)⟩

/-- C8 (amended): the attempt counter starts at 0 and `attempt++` executes
exactly once per failure that `retryCondition` deems retryable — including
the final exhausting failure — and never on success or on a non-retryable
failure: in every run the number of increments equals the number of
condition checks that returned `true`. -/
theorem spec_C8_counter_amended (o : RetryOptions ε α) (task : Nat → Except ε α)
    (jitter : Nat → ℚ) (a : Nat) (d : ℚ) :
    numIncr (retryPromise o task jitter a d).1 =
      numCondTrue (retryPromise o task jitter a d).1 :=
  numIncr_eq_numCondTrue o task jitter ((o.retries + 1 - a).toNat) a d rfl

/-- C8 counterexample: with `retries = 0` and a single retryable failure,
that final exhausting failure is not followed by another attempt (one
invocation, zero sleeps, zero retried attempts), yet the code performs one
`attempt++` increment — refuting the claim that the counter is incremented
only for failed-and-retried attempts and not for the final exhausting
failure. -/
theorem spec_C8_counterexample :
    numIncr (retryPromise cfgZeroRetries taskFailUnit jitterZero 0 100).1 = 1 ∧
    numSleeps (retryPromise cfgZeroRetries taskFailUnit jitterZero 0 100).1 = 0 ∧
    numInvokes (retryPromise cfgZeroRetries taskFailUnit jitterZero 0 100).1 = 1 ∧
    numIncr (retryPromise cfgZeroRetries taskFailUnit jitterZero 0 100).1 ≠
      numSleeps (retryPromise cfgZeroRetries taskFailUnit jitterZero 0 100).1 := by
  have h := retryPromise_allFail cfgZeroRetries taskFailUnit jitterZero (fun _ => ()) 0
    rfl (fun _ => rfl) (fun _ => rfl) 0 0 100 rfl (le_refl 0)
  refine ⟨h.2.2.2.1, h.2.2.1, h.1, ?_⟩
  rw [h.2.2.2.1, h.2.2.1]
  decide

/-- C9: the trailing `throw new Error('Retry failed unexpectedly')` is
reachable exactly when `retries < 0`: with `retries ≥ 0` every run (of the
loop, and of `retry` for either race outcome) ends in a documented terminal
outcome, while with `retries < 0` the loop body never runs — the call
rejects with the unexpected-failure outcome after zero invocations. -/
theorem spec_C9_terminal (o : RetryOptions ε α) (task : Nat → Except ε α)
    (jitter : Nat → ℚ) (d : ℚ) :
    (0 ≤ o.retries → ((retryPromise o task jitter 0 d).2).isDocumented = true) ∧
    (0 ≤ o.retries → ∀ tf, (retry o task jitter tf).isDocumented = true) ∧
    (o.retries < 0 →
      retryPromise o task jitter 0 d = ([], Outcome.unexpectedFailure) ∧
      numInvokes (retryPromise o task jitter 0 d).1 = 0) := by
  refine ⟨?_, ?_, ?_⟩
  · intro h0
    exact retryPromise_isDocumented o task jitter
      ((o.retries + 1 - (0 : Nat)).toNat) 0 d rfl (by exact_mod_cast h0)
  · intro h0 tf
    have hdoc := retryPromise_isDocumented o task jitter
      ((o.retries + 1 - (0 : Nat)).toNat) 0 o.delay rfl (by exact_mod_cast h0)
    rw [retry]
    by_cases ht : timerArmed o.timeout = true
    · rw [if_pos ht]
      cases tf
      · rw [if_neg (show ¬ (false = true) by simp)]
        exact hdoc
      · rw [if_pos rfl]
        rfl
    · rw [if_neg ht]
      exact hdoc
  · intro hneg
    have heq : retryPromise o task jitter 0 d = ([], Outcome.unexpectedFailure) := by
      rw [retryPromise, dif_neg (by omega)]
    refine ⟨heq, ?_⟩
    rw [heq]
    rfl

/-- Witness for C9: with `retries = 3` a first-attempt success is a
documented outcome; with `retries = -1` the run is the unexpected failure
with zero invocations. -/
theorem spec_C9_terminal_witness :
    (0 : Int) ≤ cfgPlain.retries ∧
    ((retryPromise cfgPlain taskOkUnit jitterZero 0 100).2).isDocumented = true ∧
    cfgNegRetries.retries < 0 ∧
    (retryPromise cfgNegRetries taskOkUnit jitterZero 0 100 =
        ([], Outcome.unexpectedFailure) ∧
      numInvokes (retryPromise cfgNegRetries taskOkUnit jitterZero 0 100).1 = 0) :=
  ⟨by decide, (spec_C9_terminal cfgPlain taskOkUnit jitterZero 100).1 (by decide),
    by decide, (spec_C9_terminal cfgNegRetries taskOkUnit jitterZero 100).2.2 (by decide)⟩

/-- C10: a timeout of 0 is falsy for `if (timeout)`, so it is treated
exactly as an absent timeout: no timer is armed and the call behaves
identically to one with no timeout configured, for either race outcome. -/
theorem spec_C10_zero_timeout (o : RetryOptions ε α) (task : Nat → Except ε α)
    (jitter : Nat → ℚ) (tf : Bool) :
    timerArmed (some 0) = false ∧
    retry { o with timeout := some 0 } task jitter tf =
      retry { o with timeout := none } task jitter tf := by
  constructor
  · decide
  · rw [retry, retry]
    have h0 : timerArmed ({ o with timeout := some (0 : ℚ) } :
        RetryOptions ε α).timeout = false := by
      show timerArmed (some (0 : ℚ)) = false
      decide
    have h1 : timerArmed ({ o with timeout := (none : Option ℚ) } :
        RetryOptions ε α).timeout = false := by
      show timerArmed (none : Option ℚ) = false
      rfl
    have h0n : ¬ (timerArmed ({ o with timeout := some (0 : ℚ) } :
        RetryOptions ε α).timeout = true) := by simp [h0]
    have h1n : ¬ (timerArmed ({ o with timeout := (none : Option ℚ) } :
        RetryOptions ε α).timeout = true) := by simp [h1]
    rw [if_neg h0n, if_neg h1n]
    have hc := retryPromise_congr ({ o with timeout := some 0 })
      ({ o with timeout := none }) rfl rfl rfl rfl rfl task jitter
      ((({ o with timeout := some (0 : ℚ) } :
        RetryOptions ε α).retries + 1 - (0 : Nat)).toNat) 0
      (({ o with timeout := some (0 : ℚ) } : RetryOptions ε α).delay) rfl
    rw [hc]

end Retryit
